import Mathlib

/-!
# Verification of the `coded` real-time WebSocket hub

Shallow embedding of `backend/websocket/manager.go` (the Hub / Manager, the
per-connection Client with its read and write pumps, and the wire-protocol
handlers) plus the persist-then-notify skeleton of
`backend/handlers/message.go`.

Modelling conventions:
* Go `map[string]interface{}` JSON values become the inductive `JValue`.
* `json.Marshal` becomes the total function `marshal` (every `JValue` is
  serializable, mirroring the fact that the marshalled maps in the source
  contain only JSON-representable data).
* A client's buffered send channel (`make(chan []byte, 256)`) becomes a
  `List Frame` together with the capacity constant 256; a non-blocking
  channel send (`select`/`default` in `Manager.Start`) succeeds exactly when
  the buffer holds fewer than 256 frames (the claims' scenario is a stalled,
  never-draining consumer).
* `close(client.send)` is counted by `closeCount`, so "closed exactly once /
  never closed twice" is the statement `closeCount = 1`.
* The hub control loop (`Manager.Start`) becomes the step function `hubStep`
  on `Hub`, processing one `register` / `unregister` / `broadcast` request at
  a time — the single-serialization-point concurrency model of the source.
-/

namespace Coded

/-- JSON-like dynamic value, modelling Go's `map[string]interface{}` payloads. -/
inductive JValue where
  | null : JValue
  | bool : Bool → JValue
  | num : Int → JValue
  | str : String → JValue
  | arr : List JValue → JValue
  | obj : List (String × JValue) → JValue

/-- Serialized wire frame (the `[]byte` produced by `json.Marshal`). -/
abbrev Frame := String

mutual

/-- JSON encoding, modelling `json.Marshal`. Total: every `JValue` has an
encoding (the envelopes marshalled by the source contain only
JSON-representable data, so the `err != nil` branches never fire). -/
def JValue.encode : JValue → String
  | .null => "null"
  | .bool b => if b then "true" else "false"
  | .num i => toString i
  | .str s => "\"" ++ s ++ "\""
  | .arr xs => "[" ++ JValue.encodeList xs ++ "]"
  | .obj fs => "\x7b" ++ JValue.encodeFields fs ++ "\x7d"

/-- Encode a JSON array's elements. -/
def JValue.encodeList : List JValue → String
  | [] => ""
  | [x] => JValue.encode x
  | x :: xs => JValue.encode x ++ "," ++ JValue.encodeList xs

/-- Encode a JSON object's fields. -/
def JValue.encodeFields : List (String × JValue) → String
  | [] => ""
  | [(k, v)] => "\"" ++ k ++ "\":" ++ JValue.encode v
  | (k, v) :: fs => "\"" ++ k ++ "\":" ++ JValue.encode v ++ "," ++ JValue.encodeFields fs

end

/-- `json.Marshal` of an envelope. -/
def marshal (v : JValue) : Frame := v.encode

/-- `data["key"]` on a decoded JSON map: `none` when the value is not an
object or the key is absent (Go yields `nil`). -/
def JValue.lookup : JValue → String → Option JValue
  | .obj fs, k => List.lookup k fs
  | _, _ => none

/-- `capacity` of each client's buffered send channel:
`make(chan []byte, 256)` in `WebSocketHandler`. -/
def capacity : Nat := 256

/-- Pointwise update of a per-client map (used for mailboxes and close
counters). -/
def setFun (f : Nat → α) (a : Nat) (v : α) : Nat → α :=
  fun x => if x = a then v else f x

/-- Hub state, from `Manager` in `manager.go`. Clients are identified by
`Nat` ids; `registry` is the key set of `m.clients`; `mailbox cid` holds the
pending frames of client `cid`'s `send` channel; `closeCount cid` counts how
many times `close(client.send)` has been executed for that client (a second
close would panic in Go, so `closeCount ≤ 1` is the no-double-close
property). -/
structure Hub where
  registry : List Nat
  mailbox : Nat → List Frame
  closeCount : Nat → Nat

/-- One request on the hub's channels, from the `select` in `Manager.Start`. -/
inductive HubReq where
  | register (cid : Nat)
  | unregister (cid : Nat)
  | broadcast (f : Frame)
  deriving DecidableEq

/-- The per-client branch of the broadcast loop in `Manager.Start`:
```
select {
case client.send <- message:
default:
    close(client.send)
    delete(m.clients, client)
}
```
The buffered send succeeds iff the mailbox has room; otherwise the client's
mailbox is closed and the client is deleted from the registry. -/
def offer (st : Hub) (cid : Nat) (f : Frame) : Hub :=
  if (st.mailbox cid).length < capacity then
    { st with mailbox := setFun st.mailbox cid (st.mailbox cid ++ [f]) }
  else
    { st with registry := st.registry.erase cid,
              closeCount := setFun st.closeCount cid (st.closeCount cid + 1) }

/-- `for client := range m.clients { ... }`: offer the frame to each client
in turn. -/
def offerAll (f : Frame) (l : List Nat) (st : Hub) : Hub :=
  l.foldl (fun s c => offer s c f) st

/-- The `case message := <-m.broadcast` branch of `Manager.Start`. -/
def broadcastStep (st : Hub) (f : Frame) : Hub :=
  offerAll f st.registry st

/-- One iteration of the hub control loop (`Manager.Start`), processing a
single request. `register` inserts into the client set; `unregister` is
gated by the membership check `if _, ok := m.clients[client]; ok` before
deleting and closing; `broadcast` fans out. -/
def hubStep (st : Hub) : HubReq → Hub
  | .register cid => { st with registry := st.registry.insert cid }
  | .unregister cid =>
      if cid ∈ st.registry then
        { st with registry := st.registry.erase cid,
                  closeCount := setFun st.closeCount cid (st.closeCount cid + 1) }
      else st
  | .broadcast f => broadcastStep st f

/-- The hub control loop processing a sequence of requests in order (the
single control loop serializes all requests). -/
def hubRun (st : Hub) (reqs : List HubReq) : Hub :=
  reqs.foldl hubStep st

/-- The frames of the broadcast requests in a request sequence, in order. -/
def broadcastFrames (reqs : List HubReq) : List Frame :=
  reqs.filterMap (fun r => match r with | .broadcast f => some f | _ => none)

/-- Envelope construction shared by every typed sender in `manager.go`:
`map[string]interface{}{"type": kind, "payload": payload}`. -/
def envelope (kind : String) (payload : JValue) : JValue :=
  .obj [("type", .str kind), ("payload", payload)]

/-- `Manager.BroadcastNewMessage`: marshal the envelope once, then hand the
single serialized frame to the broadcast loop. -/
def broadcastNewMessage (st : Hub) (payload : JValue) : Hub :=
  broadcastStep st (marshal (envelope "new_message" payload))

/-- `Manager.BroadcastChatCreated`. -/
def broadcastChatCreated (st : Hub) (payload : JValue) : Hub :=
  broadcastStep st (marshal (envelope "chat_created" payload))

/-- `Manager.BroadcastMessageRead`. -/
def broadcastMessageRead (st : Hub) (payload : JValue) : Hub :=
  broadcastStep st (marshal (envelope "message_read" payload))

/-- `Manager.BroadcastTypingStart`. -/
def broadcastTypingStart (st : Hub) (payload : JValue) : Hub :=
  broadcastStep st (marshal (envelope "typing_start" payload))

/-- `Manager.BroadcastTypingEnd`. -/
def broadcastTypingEnd (st : Hub) (payload : JValue) : Hub :=
  broadcastStep st (marshal (envelope "typing_end" payload))

/-- Per-connection context: the identity bound at handshake
(`Client.userID`). -/
structure ClientCtx where
  userID : String

/-- Effect of one inbound frame on the world outside the reader pump:
frames the client's handlers push into its own mailbox (`c.send <- msg`) and
frames they submit to the hub's broadcast channel
(`c.manager.broadcast <- msg`). -/
structure ReadOut where
  ownSends : List Frame
  broadcasts : List Frame
  deriving DecidableEq

/-- `Client.handleSubscribe`: ack to the client's own mailbox; requires
`data["channel"]` to be a string. -/
def handleSubscribe (c : ClientCtx) (now : Int) (data : JValue) : ReadOut :=
  match data.lookup "channel" with
  | some (.str channel) =>
      ⟨[marshal (.obj [("type", .str "subscribed"),
        ("payload", .obj [("channel", .str channel), ("userId", .str c.userID),
          ("time", .num now)])])], []⟩
  | _ => ⟨[], []⟩

/-- `Client.handleSubscribeChat`: ack to the client's own mailbox; requires
`data["payload"]` to be an object and `payload["chatId"]` a string. It
records no subscription state anywhere. -/
def handleSubscribeChat (c : ClientCtx) (data : JValue) : ReadOut :=
  match data.lookup "payload" with
  | some (.obj p) =>
      match List.lookup "chatId" p with
      | some (.str chatID) =>
          ⟨[marshal (.obj [("type", .str "chat_subscribed"),
            ("payload", .obj [("chatId", .str chatID), ("userId", .str c.userID)])])], []⟩
      | _ => ⟨[], []⟩
  | _ => ⟨[], []⟩

/-- The envelope rebroadcast by `Client.handleTypingStart`: `chatId` comes
from the client payload, `userId` is the connection's own `c.userID`, and
`timestamp` is server time (`time.Now().Unix()`). -/
def typingStartEnvelope (c : ClientCtx) (now : Int) (p : List (String × JValue)) : JValue :=
  .obj [("type", .str "typing_start"),
    ("payload", .obj [("chatId", (List.lookup "chatId" p).getD .null),
      ("userId", .str c.userID), ("timestamp", .num now)])]

/-- The envelope rebroadcast by `Client.handleTypingEnd`. -/
def typingEndEnvelope (c : ClientCtx) (now : Int) (p : List (String × JValue)) : JValue :=
  .obj [("type", .str "typing_end"),
    ("payload", .obj [("chatId", (List.lookup "chatId" p).getD .null),
      ("userId", .str c.userID), ("timestamp", .num now)])]

/-- The envelope rebroadcast by `Client.handleMessageRead`: `chatId` and
`messageIds` from the client payload, `userId` and `timestamp`
server-assigned. -/
def messageReadEnvelope (c : ClientCtx) (now : Int) (p : List (String × JValue)) : JValue :=
  .obj [("type", .str "message_read"),
    ("payload", .obj [("chatId", (List.lookup "chatId" p).getD .null),
      ("userId", .str c.userID),
      ("messageIds", (List.lookup "messageIds" p).getD .null),
      ("timestamp", .num now)])]

/-- `Client.handleTypingStart`: only acts when `data["payload"]` is an
object (`data["payload"].(map[string]interface{})` type assertion). -/
def handleTypingStart (c : ClientCtx) (now : Int) (data : JValue) : ReadOut :=
  match data.lookup "payload" with
  | some (.obj p) => ⟨[], [marshal (typingStartEnvelope c now p)]⟩
  | _ => ⟨[], []⟩

/-- `Client.handleTypingEnd`. -/
def handleTypingEnd (c : ClientCtx) (now : Int) (data : JValue) : ReadOut :=
  match data.lookup "payload" with
  | some (.obj p) => ⟨[], [marshal (typingEndEnvelope c now p)]⟩
  | _ => ⟨[], []⟩

/-- `Client.handleMessageRead`. -/
def handleMessageRead (c : ClientCtx) (now : Int) (data : JValue) : ReadOut :=
  match data.lookup "payload" with
  | some (.obj p) => ⟨[], [marshal (messageReadEnvelope c now p)]⟩
  | _ => ⟨[], []⟩

/-- `Client.sendPong`: application-level pong to the client's own mailbox. -/
def sendPong (now : Int) : ReadOut :=
  ⟨[marshal (.obj [("type", .str "pong"), ("payload", .obj [("time", .num now)])])], []⟩

/-- The `switch data["type"]` dispatch in `Client.readPump`. A `type` that
is absent, not a string, or not one of the six cases matches no case and
falls through with no effect. -/
def dispatchMessage (c : ClientCtx) (now : Int) (data : JValue) : ReadOut :=
  match data.lookup "type" with
  | some (.str s) =>
      match s with
      | "subscribe" => handleSubscribe c now data
      | "subscribe_chat" => handleSubscribeChat c data
      | "typing_start" => handleTypingStart c now data
      | "typing_end" => handleTypingEnd c now data
      | "message_read" => handleMessageRead c now data
      | "ping" => sendPong now
      | _ => ⟨[], []⟩
  | _ => ⟨[], []⟩

/-- Whether a decoded `data["type"]` value matches one of the six `case`
labels of the dispatch switch in `Client.readPump`. -/
def knownKind : Option JValue → Bool
  | some (.str "subscribe") => true
  | some (.str "subscribe_chat") => true
  | some (.str "typing_start") => true
  | some (.str "typing_end") => true
  | some (.str "message_read") => true
  | some (.str "ping") => true
  | _ => false

/-- The reader-pump loop of `Client.readPump` over a sequence of inbound
frames, each given as the result of `json.Unmarshal` (`none` = decode
error). A decode error logs and `continue`s — the frame is dropped, the
loop (and so the connection) stays alive and processes the rest. The loop
never exits on account of frame contents; only a transport read error (not
modelled here — it ends the input sequence) exits it. -/
def readPumpRun (c : ClientCtx) : List (Int × Option JValue) → ReadOut
  | [] => ⟨[], []⟩
  | (now, m) :: rest =>
      let cur : ReadOut :=
        match m with
        | none => ⟨[], []⟩
        | some data => dispatchMessage c now data
      let rst := readPumpRun c rest
      ⟨cur.ownSends ++ rst.ownSends, cur.broadcasts ++ rst.broadcasts⟩

/-- The only-in-the-hub effect of a client processing one inbound frame:
its handlers' `c.send <- msg` sends append to its own mailbox; the
registry and every other client's mailbox are untouched. Returned together
with the frames submitted to the hub broadcast channel. -/
def clientDispatchHub (st : Hub) (cid : Nat) (c : ClientCtx) (now : Int) (data : JValue) :
    Hub × List Frame :=
  let out := dispatchMessage c now data
  ({ st with mailbox := setFun st.mailbox cid (st.mailbox cid ++ out.ownSends) },
   out.broadcasts)

/-- `pongWait`: the 60-second idle-read deadline of `Client.readPump`. -/
def pongWait : Nat := 60

/-- Kind of an inbound item seen by the reader: an ordinary data frame
(delivered by `ReadMessage`) or a transport-level pong (handled by the
`SetPongHandler` callback). -/
inductive InboundKind where
  | dataFrame : InboundKind
  | pong : InboundKind
  deriving DecidableEq

/-- An inbound item with its arrival time (seconds since connection start). -/
structure TimedEvent where
  t : Nat
  ev : InboundKind
  deriving DecidableEq

/-- Deadline bookkeeping of `Client.readPump`: an item arriving after the
current absolute deadline means the blocking read times out first (`none` =
the pump exits). The pong handler runs `SetReadDeadline(now + 60s)`; the
data-frame path performs no `SetReadDeadline` call, so the deadline is
unchanged. -/
def readDeadlineStep (d : Nat) (e : TimedEvent) : Option Nat :=
  if d < e.t then none
  else some (match e.ev with | .pong => e.t + pongWait | .dataFrame => d)

/-- Whether the reader pump survives (is never torn down by the idle-read
deadline) across a sequence of inbound items, starting from absolute
deadline `d` (`SetReadDeadline(time.Now().Add(60s))` at pump start gives
`d = pongWait` with the connection starting at time 0). -/
def readLoopSurvives : Nat → List TimedEvent → Bool
  | _, [] => true
  | d, e :: es =>
      match readDeadlineStep d e with
      | none => false
      | some d' => readLoopSurvives d' es

/-- Teardown actions a pump performs on exit. -/
inductive TeardownAct where
  | unregisterSelf : TeardownAct
  | closeTransport : TeardownAct
  | stopTicker : TeardownAct
  deriving DecidableEq

/-- The deferred teardown of `Client.readPump`:
`c.manager.unregister <- c` then `c.conn.Close()`. -/
def readPumpExitActions : List TeardownAct :=
  [.unregisterSelf, .closeTransport]

/-- The deferred teardown of `Client.writePump`:
`ticker.Stop()` then `c.conn.Close()` — and nothing else. -/
def writePumpExitActions : List TeardownAct :=
  [.stopTicker, .closeTransport]

/-- A scheduling step of `Client.writePump`'s `select`: either the mailbox
receive fires (`case message, ok := <-c.send`) or the 30-second heartbeat
ticker fires (`case <-ticker.C`). -/
inductive WriterEvent where
  | deliver : WriterEvent
  | tick : WriterEvent
  deriving DecidableEq

/-- An item written to the wire by the writer pump: an application text
frame (`NextWriter(websocket.TextMessage)`) or a transport ping
(`WriteMessage(websocket.PingMessage, nil)`). -/
inductive WireItem where
  | text (f : Frame) : WireItem
  | ping : WireItem
  deriving DecidableEq

/-- `Client.writePump` over a schedule of select outcomes, draining the
mailbox (in FIFO channel order) to the wire. A `deliver` step with an empty
mailbox corresponds to a receive that blocks until more frames arrive and
is modelled as a skip. -/
def writePumpRun : List WriterEvent → List Frame → List WireItem
  | [], _ => []
  | .tick :: evs, mb => .ping :: writePumpRun evs mb
  | .deliver :: evs, [] => writePumpRun evs []
  | .deliver :: evs, f :: mb => .text f :: writePumpRun evs mb

/-- The application frames on the wire, in write order. -/
def appFrames (w : List WireItem) : List Frame :=
  w.filterMap (fun i => match i with | .text f => some f | .ping => none)

/-- Number of mailbox receives in a writer schedule. -/
def deliverCount (evs : List WriterEvent) : Nat :=
  (evs.filter (fun e => match e with | .deliver => true | .tick => false)).length

/-- Outcome of `WebSocketHandler` for one handshake request. -/
inductive HandshakeOutcome where
  | rejected (status : Nat) : HandshakeOutcome
  | upgradeFailed : HandshakeOutcome
  | connected (cid : Nat) : HandshakeOutcome
  deriving DecidableEq

/-- `WebSocketHandler` in `manager.go`: `r.URL.Query().Get("token")`
returns `""` when the parameter is absent (`queryToken = none`); an empty
token yields `http.Error(w, "Token required", 401)` and an immediate return
— the upgrade is never attempted and the hub is untouched. Otherwise, on a
successful upgrade, a fresh client is built with an empty capacity-256
mailbox, registered, and sent the `connected` welcome envelope. -/
def webSocketHandler (st : Hub) (queryToken : Option String) (upgradeOk : Bool)
    (cid : Nat) (now : Int) : Hub × HandshakeOutcome :=
  let token := queryToken.getD ""
  if token = "" then (st, .rejected 401)
  else if upgradeOk then
    let st1 := hubStep st (.register cid)
    let welcome := marshal (.obj [("type", .str "connected"),
      ("payload", .obj [("userId", .str token),
        ("message", .str "WebSocket connected successfully"), ("time", .num now)])])
    ({ st1 with mailbox := setFun st1.mailbox cid (st1.mailbox cid ++ [welcome]) },
     .connected cid)
  else (st, .upgradeFailed)

/-- Result of a MongoDB `FindOne` in the handlers: document found, no
document (`mongo.ErrNoDocuments`), or another database error. -/
inductive FindRes where
  | found : FindRes
  | noDoc : FindRes
  | dbErr : FindRes
  deriving DecidableEq

/-- The externally visible actions of `SendMessage` in
`handlers/message.go`, in program order. -/
inductive SendAct where
  | checkMembership : SendAct
  | insertMessage : SendAct
  | updateChatLastMessage : SendAct
  | fetchSender : SendAct
  | broadcastNewMessageAct : SendAct
  | spawnPushNotify : SendAct
  | respond (status : Nat) : SendAct
  deriving DecidableEq

/-- The action trace of `SendMessage` (from the point where the request
body and ids have validated), driven by the database outcomes: the chat
membership `FindOne` and the message `InsertOne`. The `UpdateOne` on the
chat's last message is tolerated to fail (only logged), so it does not
branch the trace; the broadcast happens only on the success path, after the
insert. -/
def sendMessage (membership : FindRes) (insertOk : Bool) : List SendAct :=
  SendAct.checkMembership ::
    match membership with
    | .noDoc => [.respond 403]
    | .dbErr => [.respond 500]
    | .found =>
        SendAct.insertMessage ::
          if insertOk then
            [.updateChatLastMessage, .fetchSender, .broadcastNewMessageAct,
             .spawnPushNotify, .respond 201]
          else [.respond 500]

/-! ### Concrete sample states used by the witnesses -/

/-- A hub with clients 0 and 1 where client 0's mailbox is saturated at
capacity and client 1's mailbox is empty. -/
def hubFullZero : Hub :=
  { registry := [0, 1],
    mailbox := fun c => if c = 0 then List.replicate capacity "m" else [],
    closeCount := fun _ => 0 }

/-- A hub with a single client 0 with an empty mailbox. -/
def hubOne : Hub :=
  { registry := [0],
    mailbox := fun _ => [],
    closeCount := fun _ => 0 }

/-- A hub with clients 0 and 1 with empty mailboxes. -/
def hubTwo : Hub :=
  { registry := [0, 1],
    mailbox := fun _ => [],
    closeCount := fun _ => 0 }

/-- A connection context bound to identity `alice`. -/
def clientAlice : ClientCtx := ⟨"alice"⟩

/-- Field `k` of the `payload` object of an envelope. -/
def payloadField (e : JValue) (k : String) : Option JValue :=
  match e.lookup "payload" with
  | some v => v.lookup k
  | none => none

/-- A decoded inbound `subscribe_chat` frame. -/
def subscribeChatFrame : JValue :=
  .obj [("type", .str "subscribe_chat"), ("payload", .obj [("chatId", .str "chat1")])]

/-- A decoded inbound frame with an unrecognized kind tag. -/
def unknownKindFrame : JValue :=
  .obj [("type", .str "frobnicate"), ("payload", .obj [("x", .num 1)])]

/-- A decoded inbound `typing_start` frame whose payload tries to spoof
`userId` and `timestamp`. -/
def spoofedTypingFrame : JValue :=
  .obj [("type", .str "typing_start"),
    ("payload", .obj [("chatId", .str "chat1"), ("userId", .str "mallory"),
      ("timestamp", .num 123)])]

/-! ### Helper lemmas about the hub's fan-out loop -/

theorem setFun_self (f : Nat → α) (a : Nat) (v : α) : setFun f a v a = v := by
  simp [setFun]

theorem setFun_ne (f : Nat → α) (a : Nat) (v : α) {x : Nat} (h : x ≠ a) :
    setFun f a v x = f x := by
  simp [setFun, h]

theorem offer_mailbox_ne {st : Hub} {cid c : Nat} (f : Frame) (h : c ≠ cid) :
    (offer st cid f).mailbox c = st.mailbox c := by
  unfold offer
  split
  · exact setFun_ne _ _ _ h
  · rfl

theorem offer_closeCount_ne {st : Hub} {cid c : Nat} (f : Frame) (h : c ≠ cid) :
    (offer st cid f).closeCount c = st.closeCount c := by
  unfold offer
  split
  · rfl
  · exact setFun_ne _ _ _ h

theorem offer_mem_registry_ne {st : Hub} {cid c : Nat} (f : Frame) (h : c ≠ cid) :
    c ∈ (offer st cid f).registry ↔ c ∈ st.registry := by
  unfold offer
  split
  · exact Iff.rfl
  · exact List.mem_erase_of_ne h

theorem offer_registry_subset {st : Hub} {cid : Nat} (f : Frame) :
    (offer st cid f).registry ⊆ st.registry := by
  unfold offer
  split
  · exact fun _ h => h
  · exact List.erase_subset _ _

theorem offer_nodup {st : Hub} (hn : st.registry.Nodup) (cid : Nat) (f : Frame) :
    (offer st cid f).registry.Nodup := by
  unfold offer
  split
  · exact hn
  · exact hn.erase _

theorem offerAll_nil (f : Frame) (st : Hub) : offerAll f [] st = st := rfl

theorem offerAll_cons (f : Frame) (c : Nat) (l : List Nat) (st : Hub) :
    offerAll f (c :: l) st = offerAll f l (offer st c f) := rfl

theorem offerAll_not_mem {cid : Nat} (f : Frame) :
    ∀ (l : List Nat) (st : Hub), cid ∉ l →
      (offerAll f l st).mailbox cid = st.mailbox cid
      ∧ (offerAll f l st).closeCount cid = st.closeCount cid
      ∧ (cid ∈ (offerAll f l st).registry ↔ cid ∈ st.registry)
  | [], _, _ => ⟨rfl, rfl, Iff.rfl⟩
  | c :: l, st, h => by
      have hne : cid ≠ c := fun e => h (e ▸ List.mem_cons_self c l)
      have ih := offerAll_not_mem f l (offer st c f) (fun hm => h (List.mem_cons_of_mem _ hm))
      rw [offerAll_cons]
      exact ⟨ih.1.trans (offer_mailbox_ne f hne), ih.2.1.trans (offer_closeCount_ne f hne),
        ih.2.2.trans (offer_mem_registry_ne f hne)⟩

theorem offerAll_registry_subset (f : Frame) :
    ∀ (l : List Nat) (st : Hub), (offerAll f l st).registry ⊆ st.registry
  | [], _ => fun _ h => h
  | c :: l, st => by
      rw [offerAll_cons]
      exact fun x hx =>
        offer_registry_subset f (offerAll_registry_subset f l (offer st c f) hx)

theorem offerAll_nodup (f : Frame) :
    ∀ (l : List Nat) (st : Hub), st.registry.Nodup → (offerAll f l st).registry.Nodup
  | [], _, hn => hn
  | c :: l, st, hn => by
      rw [offerAll_cons]
      exact offerAll_nodup f l _ (offer_nodup hn c f)

theorem offerAll_mem_room {cid : Nat} (f : Frame) :
    ∀ (l : List Nat) (st : Hub), l.Nodup → cid ∈ l →
      (st.mailbox cid).length < capacity →
      (offerAll f l st).mailbox cid = st.mailbox cid ++ [f]
      ∧ (offerAll f l st).closeCount cid = st.closeCount cid
      ∧ (cid ∈ (offerAll f l st).registry ↔ cid ∈ st.registry)
  | [], _, _, hm, _ => absurd hm (List.not_mem_nil cid)
  | c :: l, st, hnd, hm, hroom => by
      rw [offerAll_cons]
      rcases List.mem_cons.mp hm with he | hm'
      · subst he
        have hofr : offer st cid f =
            { st with mailbox := setFun st.mailbox cid (st.mailbox cid ++ [f]) } := by
          unfold offer
          rw [if_pos hroom]
        have hnot : cid ∉ l := (List.nodup_cons.mp hnd).1
        have ih := offerAll_not_mem f l (offer st cid f) hnot
        refine ⟨ih.1.trans ?_, ih.2.1.trans ?_, ih.2.2.trans ?_⟩
        · rw [hofr]
          exact setFun_self _ _ _
        · rw [hofr]
        · rw [hofr]
      · have hne : cid ≠ c := by
          intro e
          subst e
          exact (List.nodup_cons.mp hnd).1 hm'
        have hroom' : ((offer st c f).mailbox cid).length < capacity := by
          rw [offer_mailbox_ne f hne]
          exact hroom
        have ih := offerAll_mem_room f l (offer st c f) (List.nodup_cons.mp hnd).2 hm' hroom'
        refine ⟨?_, ?_, ?_⟩
        · rw [ih.1, offer_mailbox_ne f hne]
        · rw [ih.2.1, offer_closeCount_ne f hne]
        · exact ih.2.2.trans (offer_mem_registry_ne f hne)

theorem offerAll_mem_full {cid : Nat} (f : Frame) :
    ∀ (l : List Nat) (st : Hub), l.Nodup → cid ∈ l → st.registry.Nodup →
      ¬ (st.mailbox cid).length < capacity →
      (offerAll f l st).mailbox cid = st.mailbox cid
      ∧ (offerAll f l st).closeCount cid = st.closeCount cid + 1
      ∧ cid ∉ (offerAll f l st).registry
  | [], _, _, hm, _, _ => absurd hm (List.not_mem_nil cid)
  | c :: l, st, hnd, hm, hrn, hfull => by
      rw [offerAll_cons]
      rcases List.mem_cons.mp hm with he | hm'
      · subst he
        have hofr : offer st cid f =
            { st with registry := st.registry.erase cid,
                      closeCount := setFun st.closeCount cid (st.closeCount cid + 1) } := by
          unfold offer
          rw [if_neg hfull]
        have hnot : cid ∉ l := (List.nodup_cons.mp hnd).1
        have ih := offerAll_not_mem f l (offer st cid f) hnot
        refine ⟨ih.1.trans ?_, ih.2.1.trans ?_, ?_⟩
        · rw [hofr]
        · rw [hofr]
          exact setFun_self _ _ _
        · intro hc
          have := ih.2.2.mp hc
          rw [hofr] at this
          exact hrn.not_mem_erase this
      · have hne : cid ≠ c := by
          intro e
          subst e
          exact (List.nodup_cons.mp hnd).1 hm'
        have hfull' : ¬ ((offer st c f).mailbox cid).length < capacity := by
          rw [offer_mailbox_ne f hne]
          exact hfull
        have ih := offerAll_mem_full f l (offer st c f) (List.nodup_cons.mp hnd).2 hm'
          (offer_nodup hrn c f) hfull'
        refine ⟨?_, ?_, ih.2.2⟩
        · rw [ih.1, offer_mailbox_ne f hne]
        · rw [ih.2.1, offer_closeCount_ne f hne]

theorem broadcastStep_nodup {st : Hub} (hn : st.registry.Nodup) (f : Frame) :
    (broadcastStep st f).registry.Nodup :=
  offerAll_nodup f st.registry st hn

/-- Delivery to one live client with room, as performed by the `broadcast`
branch of `Manager.Start`. -/
theorem broadcastStep_mailbox_room {st : Hub} {cid : Nat} (f : Frame)
    (hn : st.registry.Nodup) (hm : cid ∈ st.registry)
    (hroom : (st.mailbox cid).length < capacity) :
    (broadcastStep st f).mailbox cid = st.mailbox cid ++ [f]
    ∧ cid ∈ (broadcastStep st f).registry :=
  let h := offerAll_mem_room f st.registry st hn hm hroom
  ⟨h.1, h.2.2.mpr hm⟩

theorem hubStep_nodup {st : Hub} (hn : st.registry.Nodup) (r : HubReq) :
    (hubStep st r).registry.Nodup := by
  cases r with
  | register cid => exact hn.insert
  | unregister cid =>
      have hdef : hubStep st (.unregister cid) =
          if cid ∈ st.registry then
            { st with registry := st.registry.erase cid,
                      closeCount := setFun st.closeCount cid (st.closeCount cid + 1) }
          else st := rfl
      rw [hdef]
      split
      · exact hn.erase _
      · exact hn
  | broadcast f => exact broadcastStep_nodup hn f

theorem hubStep_unregister_def (st : Hub) (c : Nat) :
    hubStep st (.unregister c) =
      if c ∈ st.registry then
        { st with registry := st.registry.erase c,
                  closeCount := setFun st.closeCount c (st.closeCount c + 1) }
      else st := rfl

theorem hubRun_nil (st : Hub) : hubRun st [] = st := rfl

theorem hubRun_cons (st : Hub) (r : HubReq) (reqs : List HubReq) :
    hubRun st (r :: reqs) = hubRun (hubStep st r) reqs := rfl

/-- Accumulation of broadcast frames in a live connection's mailbox: while
the hub processes a request sequence during which the connection is never
the target of an unregister request and its mailbox never reaches capacity,
every broadcast frame is appended to its mailbox in request order. -/
theorem hubRun_live_mailbox {cid : Nat} :
    ∀ (reqs : List HubReq) (st : Hub), st.registry.Nodup → cid ∈ st.registry →
      HubReq.unregister cid ∉ reqs →
      (st.mailbox cid).length + (broadcastFrames reqs).length ≤ capacity →
      (hubRun st reqs).mailbox cid = st.mailbox cid ++ broadcastFrames reqs
      ∧ cid ∈ (hubRun st reqs).registry
      ∧ (hubRun st reqs).registry.Nodup
  | [], st, hn, hm, _, _ => ⟨(List.append_nil _).symm, hm, hn⟩
  | r :: reqs, st, hn, hm, hnu, hcap => by
      rw [hubRun_cons]
      have hnu' : HubReq.unregister cid ∉ reqs := fun h => hnu (List.mem_cons_of_mem _ h)
      cases r with
      | register c =>
          have hm' : cid ∈ (hubStep st (.register c)).registry :=
            List.mem_insert_iff.mpr (Or.inr hm)
          exact hubRun_live_mailbox reqs _ hn.insert hm' hnu' hcap
      | unregister c =>
          have hne : cid ≠ c := fun e => hnu (by rw [e]; exact List.mem_cons_self _ _)
          rw [hubStep_unregister_def]
          split
          · exact hubRun_live_mailbox reqs _ (hn.erase c)
              ((List.mem_erase_of_ne hne).mpr hm) hnu' hcap
          · exact hubRun_live_mailbox reqs st hn hm hnu' hcap
      | broadcast f =>
          have hbf : broadcastFrames (HubReq.broadcast f :: reqs) = f :: broadcastFrames reqs :=
            rfl
          rw [hbf] at hcap
          have hroom : (st.mailbox cid).length < capacity := by
            rw [List.length_cons] at hcap
            omega
          have hstep := offerAll_mem_room f st.registry st hn hm hroom
          have hcap' :
              ((broadcastStep st f).mailbox cid).length + (broadcastFrames reqs).length
                ≤ capacity := by
            have hmb : (broadcastStep st f).mailbox cid = st.mailbox cid ++ [f] := hstep.1
            rw [hmb, List.length_append, List.length_singleton]
            rw [List.length_cons] at hcap
            omega
          have ih := hubRun_live_mailbox reqs (broadcastStep st f)
            (broadcastStep_nodup hn f) (hstep.2.2.mpr hm) hnu' hcap'
          refine ⟨?_, ih.2.1, ih.2.2⟩
          have hsd : hubStep st (HubReq.broadcast f) = broadcastStep st f := rfl
          rw [hsd, hbf, ih.1]
          have hmb : (broadcastStep st f).mailbox cid = st.mailbox cid ++ [f] := hstep.1
          rw [hmb, List.append_assoc, List.singleton_append]

theorem appFrames_ping (w : List WireItem) : appFrames (.ping :: w) = appFrames w := by
  simp [appFrames]

theorem appFrames_text (f : Frame) (w : List WireItem) :
    appFrames (.text f :: w) = f :: appFrames w := by
  simp [appFrames]

theorem deliverCount_tick (evs : List WriterEvent) :
    deliverCount (.tick :: evs) = deliverCount evs := by
  simp [deliverCount, List.filter_cons]

theorem deliverCount_deliver (evs : List WriterEvent) :
    deliverCount (.deliver :: evs) = deliverCount evs + 1 := by
  simp [deliverCount, List.filter_cons]

theorem appFrames_writePumpRun :
    ∀ (evs : List WriterEvent) (mb : List Frame),
      appFrames (writePumpRun evs mb) = mb.take (deliverCount evs)
  | [], mb => by simp [writePumpRun, appFrames, deliverCount]
  | .tick :: evs, mb => by
      rw [show writePumpRun (.tick :: evs) mb = .ping :: writePumpRun evs mb from rfl,
        appFrames_ping, appFrames_writePumpRun evs mb, deliverCount_tick]
  | .deliver :: evs, [] => by
      rw [show writePumpRun (.deliver :: evs) [] = writePumpRun evs [] from rfl,
        appFrames_writePumpRun evs []]
      simp
  | .deliver :: evs, f :: mb => by
      rw [show writePumpRun (.deliver :: evs) (f :: mb) = .text f :: writePumpRun evs mb
          from rfl,
        appFrames_text, appFrames_writePumpRun evs mb, deliverCount_deliver,
        List.take_succ_cons]

theorem readLoopSurvives_cons (d : Nat) (e : TimedEvent) (es : List TimedEvent) :
    readLoopSurvives d (e :: es) =
      match readDeadlineStep d e with
      | none => false
      | some d' => readLoopSurvives d' es := rfl

/-- From any deadline `a + pongWait`, a sequence of pongs each arriving
within `pongWait` of its predecessor keeps the reader pump alive. -/
theorem survivesPongs :
    ∀ (ts : List Nat) (a : Nat), List.Chain (fun x y => y ≤ x + pongWait) a ts →
      readLoopSurvives (a + pongWait) (ts.map (fun u => ⟨u, .pong⟩)) = true
  | [], _, _ => rfl
  | b :: ts, a, h => by
      rcases List.chain_cons.mp h with ⟨hb, hrest⟩
      have hstep : readDeadlineStep (a + pongWait) ⟨b, .pong⟩ = some (b + pongWait) := by
        unfold readDeadlineStep
        rw [if_neg (by simp; omega)]
      rw [List.map_cons, readLoopSurvives_cons, hstep]
      exact survivesPongs ts b hrest

/-- Invariant tying a connection's close count to its registry membership:
either the mailbox was never closed and the connection is registered, or it
was closed exactly once and the connection is gone. A connection object is
never re-registered in the source (clients are fresh structs per
handshake), which is why `register cid` is excluded by the callers. -/
def closeInv (st : Hub) (cid : Nat) : Prop :=
  (st.closeCount cid = 0 ∧ cid ∈ st.registry)
  ∨ (st.closeCount cid = 1 ∧ cid ∉ st.registry)

theorem closeInv_closed_step {st : Hub} {cid : Nat} (r : HubReq)
    (_hn : st.registry.Nodup)
    (h1 : st.closeCount cid = 1) (h2 : cid ∉ st.registry) (hr : r ≠ .register cid) :
    (hubStep st r).closeCount cid = 1 ∧ cid ∉ (hubStep st r).registry := by
  cases r with
  | register c =>
      have hne : c ≠ cid := fun e => hr (by rw [e])
      refine ⟨h1, fun hmem => ?_⟩
      rcases List.mem_insert_iff.mp hmem with he | hm
      · exact hne he.symm
      · exact h2 hm
  | unregister c =>
      rw [hubStep_unregister_def]
      split
      next hmem =>
        have hne : cid ≠ c := by
          intro e
          subst e
          exact h2 hmem
        refine ⟨?_, fun hx => h2 ((List.mem_erase_of_ne hne).mp hx)⟩
        show setFun st.closeCount c (st.closeCount c + 1) cid = 1
        rw [setFun_ne _ _ _ hne]
        exact h1
      next hmem => exact ⟨h1, h2⟩
  | broadcast f =>
      have h := @offerAll_not_mem cid f st.registry st h2
      exact ⟨h.2.1.trans h1, fun hx => h2 (h.2.2.mp hx)⟩

theorem closeInv_open_step {st : Hub} {cid : Nat} (r : HubReq)
    (hn : st.registry.Nodup) (h0 : st.closeCount cid = 0) (hm : cid ∈ st.registry)
    (hr : r ≠ .register cid) :
    closeInv (hubStep st r) cid := by
  cases r with
  | register c =>
      left
      exact ⟨h0, List.mem_insert_iff.mpr (Or.inr hm)⟩
  | unregister c =>
      rw [hubStep_unregister_def]
      split
      next hcm =>
        by_cases hc : c = cid
        · subst hc
          right
          refine ⟨?_, hn.not_mem_erase⟩
          show setFun st.closeCount c (st.closeCount c + 1) c = 1
          rw [setFun_self, h0]
        · left
          refine ⟨?_, (List.mem_erase_of_ne (fun e => hc e.symm)).mpr hm⟩
          show setFun st.closeCount c (st.closeCount c + 1) cid = 0
          rw [setFun_ne _ _ _ (fun e => hc e.symm)]
          exact h0
      next hcm =>
        left
        exact ⟨h0, hm⟩
  | broadcast f =>
      by_cases hroom : (st.mailbox cid).length < capacity
      · left
        have h := offerAll_mem_room f st.registry st hn hm hroom
        exact ⟨h.2.1.trans h0, h.2.2.mpr hm⟩
      · right
        have h := offerAll_mem_full f st.registry st hn hm hn hroom
        refine ⟨?_, h.2.2⟩
        show (offerAll f st.registry st).closeCount cid = 1
        rw [h.2.1, h0]

theorem unregister_forces_closed {st : Hub} {cid : Nat} (hn : st.registry.Nodup)
    (hinv : closeInv st cid) :
    (hubStep st (.unregister cid)).closeCount cid = 1
    ∧ cid ∉ (hubStep st (.unregister cid)).registry := by
  rcases hinv with ⟨h0, hm⟩ | ⟨h1, h2⟩
  · rw [hubStep_unregister_def, if_pos hm]
    refine ⟨?_, hn.not_mem_erase⟩
    show setFun st.closeCount cid (st.closeCount cid + 1) cid = 1
    rw [setFun_self, h0]
  · exact closeInv_closed_step _ hn h1 h2 (fun h => HubReq.noConfusion h)

theorem hubRun_stays_closed {cid : Nat} :
    ∀ (reqs : List HubReq) (st : Hub), st.registry.Nodup →
      HubReq.register cid ∉ reqs →
      st.closeCount cid = 1 → cid ∉ st.registry →
      (hubRun st reqs).closeCount cid = 1 ∧ cid ∉ (hubRun st reqs).registry
  | [], _, _, _, h1, h2 => ⟨h1, h2⟩
  | r :: reqs, st, hn, hreg, h1, h2 => by
      rw [hubRun_cons]
      have hr : r ≠ .register cid := fun e => hreg (e ▸ List.mem_cons_self _ _)
      have h := closeInv_closed_step r hn h1 h2 hr
      exact hubRun_stays_closed reqs _ (hubStep_nodup hn r)
        (fun hx => hreg (List.mem_cons_of_mem _ hx)) h.1 h.2

/-- Once the hub processes an unregister request for a connection that is
never re-registered, the connection's mailbox ends up closed exactly once
and the connection is absent from the registry. -/
theorem hubRun_close_exactly_once {cid : Nat} :
    ∀ (reqs : List HubReq) (st : Hub), st.registry.Nodup →
      HubReq.register cid ∉ reqs → closeInv st cid →
      HubReq.unregister cid ∈ reqs →
      (hubRun st reqs).closeCount cid = 1 ∧ cid ∉ (hubRun st reqs).registry
  | [], _, _, _, _, hmem => absurd hmem (List.not_mem_nil _)
  | r :: reqs, st, hn, hreg, hinv, hmem => by
      rw [hubRun_cons]
      have hr : r ≠ .register cid := fun e => hreg (e ▸ List.mem_cons_self _ _)
      have hreg' : HubReq.register cid ∉ reqs :=
        fun hx => hreg (List.mem_cons_of_mem _ hx)
      by_cases hru : r = HubReq.unregister cid
      · subst hru
        have hco := unregister_forces_closed hn hinv
        exact hubRun_stays_closed reqs _ (hubStep_nodup hn _) hreg' hco.1 hco.2
      · have hinv' : closeInv (hubStep st r) cid := by
          rcases hinv with ⟨h0, hm⟩ | ⟨h1, h2⟩
          · exact closeInv_open_step r hn h0 hm hr
          · right
            exact closeInv_closed_step r hn h1 h2 hr
        have hmem' : HubReq.unregister cid ∈ reqs := by
          rcases List.mem_cons.mp hmem with he | hx
          · exact absurd he.symm hru
          · exact hx
        exact hubRun_close_exactly_once reqs _ (hubStep_nodup hn r) hreg' hinv' hmem'

/-! ### Claim theorems -/

/-- **C1**: a broadcast reaching a connection whose mailbox is at full
capacity (256 pending frames, none drained) never blocks or errors the
broadcaster (`broadcastStep` is a total function on hub states): the full
connection is deleted from the live registry and its mailbox is closed,
while every other live connection with room still receives the frame. -/
theorem backpressure_full_mailbox_disconnects (st : Hub) (f : Frame) (cid : Nat)
    (hn : st.registry.Nodup) (hmem : cid ∈ st.registry)
    (hfull : (st.mailbox cid).length = capacity) :
    cid ∉ (broadcastStep st f).registry
    ∧ (broadcastStep st f).closeCount cid = st.closeCount cid + 1
    ∧ (broadcastStep st f).mailbox cid = st.mailbox cid
    ∧ ∀ c ∈ st.registry, c ≠ cid → (st.mailbox c).length < capacity →
        (broadcastStep st f).mailbox c = st.mailbox c ++ [f]
        ∧ c ∈ (broadcastStep st f).registry := by
  have hnlt : ¬ (st.mailbox cid).length < capacity := by omega
  have h := offerAll_mem_full f st.registry st hn hmem hn hnlt
  refine ⟨h.2.2, h.2.1, h.1, ?_⟩
  intro c hc _ hroom
  have h2 := offerAll_mem_room f st.registry st hn hc hroom
  exact ⟨h2.1, h2.2.2.mpr hc⟩

set_option maxRecDepth 10000 in
theorem backpressure_full_mailbox_disconnects_witness :
    0 ∉ (broadcastStep hubFullZero "m2").registry
    ∧ (broadcastStep hubFullZero "m2").closeCount 0 = 1
    ∧ (broadcastStep hubFullZero "m2").mailbox 1 = ["m2"]
    ∧ 1 ∈ (broadcastStep hubFullZero "m2").registry := by
  have h := backpressure_full_mailbox_disconnects hubFullZero "m2" 0 (by decide) (by decide)
    (by decide)
  have h4 := h.2.2.2 1 (by decide) (by decide) (by decide)
  exact ⟨h.1, h.2.1.trans (by decide), h4.1.trans (by decide), h4.2⟩

/-- **C2**: unregister is idempotent — processing a second unregister
request for the same connection after a first one is a no-op: the resulting
hub state (registry, mailboxes, and close counts — so no second
`close(client.send)`) is exactly the state after the first unregister. -/
theorem unregister_idempotent (st : Hub) (cid : Nat) (hn : st.registry.Nodup) :
    hubStep (hubStep st (.unregister cid)) (.unregister cid) = hubStep st (.unregister cid)
    ∧ (hubStep (hubStep st (.unregister cid)) (.unregister cid)).closeCount cid
        = (hubStep st (.unregister cid)).closeCount cid := by
  have hmain : hubStep (hubStep st (.unregister cid)) (.unregister cid)
      = hubStep st (.unregister cid) := by
    by_cases hm : cid ∈ st.registry
    · rw [hubStep_unregister_def st, if_pos hm, hubStep_unregister_def,
        if_neg (show cid ∉ st.registry.erase cid from hn.not_mem_erase)]
    · rw [hubStep_unregister_def st, if_neg hm, hubStep_unregister_def, if_neg hm]
  exact ⟨hmain, congrArg (fun s => s.closeCount cid) hmain⟩

theorem unregister_idempotent_witness :
    hubStep (hubStep hubTwo (.unregister 0)) (.unregister 0) = hubStep hubTwo (.unregister 0)
    ∧ (hubStep (hubStep hubTwo (.unregister 0)) (.unregister 0)).closeCount 0
        = (hubStep hubTwo (.unregister 0)).closeCount 0 :=
  unregister_idempotent hubTwo 0 (by decide)

/-- **C7**: a frame that fails to decode (`json.Unmarshal` error) is
dropped and the reader pump continues with the rest of the input — no
effect at all; a frame that decodes but whose `type` matches none of the
six dispatch cases is silently ignored: no response into the client's own
mailbox, no broadcast, and the pump likewise continues. -/
theorem malformed_or_unknown_frames_ignored (c : ClientCtx) (now : Int) (data : JValue)
    (rest : List (Int × Option JValue)) (hk : knownKind (data.lookup "type") = false) :
    readPumpRun c ((now, none) :: rest) = readPumpRun c rest
    ∧ dispatchMessage c now data = ⟨[], []⟩
    ∧ readPumpRun c ((now, some data) :: rest) = readPumpRun c rest := by
  have hdisp : dispatchMessage c now data = ⟨[], []⟩ := by
    unfold dispatchMessage
    split
    next s heq =>
      rw [heq] at hk
      split
      any_goals exact Bool.noConfusion hk
      rfl
    next => rfl
  refine ⟨rfl, hdisp, ?_⟩
  have hrun : readPumpRun c ((now, some data) :: rest) =
      ⟨(dispatchMessage c now data).ownSends ++ (readPumpRun c rest).ownSends,
       (dispatchMessage c now data).broadcasts ++ (readPumpRun c rest).broadcasts⟩ := rfl
  rw [hrun, hdisp]
  exact rfl

theorem malformed_or_unknown_frames_ignored_witness :
    readPumpRun clientAlice [((5 : Int), none)] = readPumpRun clientAlice []
    ∧ dispatchMessage clientAlice 5 unknownKindFrame = ⟨[], []⟩
    ∧ readPumpRun clientAlice [((5 : Int), some unknownKindFrame)] = readPumpRun clientAlice [] :=
  malformed_or_unknown_frames_ignored clientAlice 5 unknownKindFrame [] rfl

/-- **C8**: persist-then-notify in `SendMessage` — the `new_message`
broadcast action appears in the handler's trace only when the membership
check found the chat and the durable insert succeeded; when the insert
fails, the handler responds 500 and the broadcast action never appears; on
the success path the trace puts the insert strictly before the broadcast. -/
theorem persist_then_notify (m : FindRes) (i : Bool) :
    (SendAct.broadcastNewMessageAct ∈ sendMessage m i → m = .found ∧ i = true)
    ∧ (i = false → SendAct.broadcastNewMessageAct ∉ sendMessage m i)
    ∧ (m = .found → i = false → SendAct.respond 500 ∈ sendMessage m i)
    ∧ (m = .found → i = true →
        ∃ l, sendMessage m i = [SendAct.checkMembership, SendAct.insertMessage] ++ l
          ∧ SendAct.broadcastNewMessageAct ∈ l) := by
  refine ⟨?_, ?_, ?_, ?_⟩
  · cases m <;> cases i <;> decide
  · cases m <;> cases i <;> decide
  · cases m <;> cases i <;> decide
  · intro hm hi
    subst hm
    subst hi
    exact ⟨[SendAct.updateChatLastMessage, SendAct.fetchSender,
      SendAct.broadcastNewMessageAct, SendAct.spawnPushNotify, SendAct.respond 201],
      rfl, by decide⟩

theorem persist_then_notify_witness :
    (SendAct.broadcastNewMessageAct ∉ sendMessage .found false)
    ∧ (∃ l, sendMessage .found true = [SendAct.checkMembership, SendAct.insertMessage] ++ l
        ∧ SendAct.broadcastNewMessageAct ∈ l) :=
  ⟨(persist_then_notify .found false).2.1 rfl,
   (persist_then_notify .found true).2.2.2 rfl rfl⟩

/-- **C9**: a handshake whose `token` query parameter is absent
(`queryToken = none`, so `Query().Get` yields `""`) or explicitly empty is
answered with HTTP 401, no upgrade is attempted
(outcome `rejected`, not `upgradeFailed`/`connected`), and the hub state —
in particular the registry — is returned unchanged. -/
theorem missing_token_rejected (st : Hub) (q : Option String) (u : Bool) (cid : Nat)
    (now : Int) (h : q = none ∨ q = some "") :
    webSocketHandler st q u cid now = (st, .rejected 401) := by
  rcases h with h | h <;> subst h <;> rfl

theorem missing_token_rejected_witness :
    webSocketHandler hubOne none true 7 0 = (hubOne, .rejected 401) :=
  missing_token_rejected hubOne none true 7 0 (Or.inl rfl)

/-- **C3**: per-connection FIFO. For two broadcasts B1 issued before B2
(requests processed by the single hub control loop in order), a connection
registered before B1 that stays live through both (never unregistered,
mailbox never overflowing) receives B1 in its mailbox strictly before B2;
and the writer pump, draining the mailbox FIFO to the wire with any
interleaving of heartbeat ticks, writes B1 to the transport strictly
before B2. -/
theorem fifo_per_connection (st : Hub) (cid : Nat) (B1 B2 : Frame)
    (l1 l2 l3 : List HubReq) (evs : List WriterEvent)
    (hn : st.registry.Nodup) (hmem : cid ∈ st.registry)
    (hnu : HubReq.unregister cid ∉ l1 ++ HubReq.broadcast B1 :: (l2 ++ HubReq.broadcast B2 :: l3))
    (hcap : (st.mailbox cid).length
        + (broadcastFrames (l1 ++ HubReq.broadcast B1 :: (l2 ++ HubReq.broadcast B2 :: l3))).length
        ≤ capacity)
    (hdel : ((hubRun st (l1 ++ HubReq.broadcast B1 :: (l2 ++ HubReq.broadcast B2 :: l3))).mailbox
        cid).length ≤ deliverCount evs) :
    (hubRun st (l1 ++ HubReq.broadcast B1 :: (l2 ++ HubReq.broadcast B2 :: l3))).mailbox cid
      = (st.mailbox cid ++ broadcastFrames l1)
          ++ B1 :: (broadcastFrames l2 ++ B2 :: broadcastFrames l3)
    ∧ ∃ A C D,
        appFrames (writePumpRun evs
            ((hubRun st (l1 ++ HubReq.broadcast B1 :: (l2 ++ HubReq.broadcast B2 :: l3))).mailbox
              cid))
          = A ++ B1 :: (C ++ B2 :: D) := by
  have h := @hubRun_live_mailbox cid
    (l1 ++ HubReq.broadcast B1 :: (l2 ++ HubReq.broadcast B2 :: l3)) st hn hmem hnu hcap
  have hbf : broadcastFrames (l1 ++ HubReq.broadcast B1 :: (l2 ++ HubReq.broadcast B2 :: l3))
      = broadcastFrames l1 ++ B1 :: (broadcastFrames l2 ++ B2 :: broadcastFrames l3) := by
    simp [broadcastFrames, List.filterMap_append, List.filterMap_cons]
  have hmb : (hubRun st (l1 ++ HubReq.broadcast B1 :: (l2 ++ HubReq.broadcast B2 :: l3))).mailbox
      cid = (st.mailbox cid ++ broadcastFrames l1)
        ++ B1 :: (broadcastFrames l2 ++ B2 :: broadcastFrames l3) := by
    rw [h.1, hbf, ← List.append_assoc]
  refine ⟨hmb, st.mailbox cid ++ broadcastFrames l1, broadcastFrames l2, broadcastFrames l3, ?_⟩
  rw [appFrames_writePumpRun, List.take_of_length_le hdel, hmb]

theorem fifo_per_connection_witness :
    (hubRun hubOne ([] ++ HubReq.broadcast "b1" :: ([] ++ HubReq.broadcast "b2" :: []))).mailbox 0
      = (hubOne.mailbox 0 ++ broadcastFrames [])
          ++ "b1" :: (broadcastFrames [] ++ "b2" :: broadcastFrames [])
    ∧ ∃ A C D,
        appFrames (writePumpRun [WriterEvent.deliver, WriterEvent.deliver]
            ((hubRun hubOne
                ([] ++ HubReq.broadcast "b1" :: ([] ++ HubReq.broadcast "b2" :: []))).mailbox 0))
          = A ++ "b1" :: (C ++ "b2" :: D) :=
  fifo_per_connection hubOne 0 "b1" "b2" [] [] [] [WriterEvent.deliver, WriterEvent.deliver]
    (by decide) (by decide) (by decide) (by decide) (by decide)

/-- **C4**: every typed broadcast sender marshals its envelope once and the
hub loop offers that one serialized frame to every connection in the live
registry — each live connection with room receives the identical frame
`marshal (envelope kind payload)`, with no per-chat or per-user filtering.
A client's processing of any inbound frame — in particular a
`subscribe_chat` — leaves the registry (the delivery set) unchanged, so
delivery is unaffected by subscriptions. -/
theorem typed_broadcasts_unfiltered (st : Hub) (p : JValue) (cid : Nat) (c : ClientCtx)
    (now : Int) (data : JValue) (hn : st.registry.Nodup) (ch : Nat)
    (hch : ch ∈ st.registry)
    (hroom : ((clientDispatchHub st cid c now data).1.mailbox ch).length < capacity) :
    (clientDispatchHub st cid c now data).1.registry = st.registry
    ∧ (broadcastNewMessage (clientDispatchHub st cid c now data).1 p).mailbox ch
        = (clientDispatchHub st cid c now data).1.mailbox ch
          ++ [marshal (envelope "new_message" p)]
    ∧ (broadcastChatCreated (clientDispatchHub st cid c now data).1 p).mailbox ch
        = (clientDispatchHub st cid c now data).1.mailbox ch
          ++ [marshal (envelope "chat_created" p)]
    ∧ (broadcastMessageRead (clientDispatchHub st cid c now data).1 p).mailbox ch
        = (clientDispatchHub st cid c now data).1.mailbox ch
          ++ [marshal (envelope "message_read" p)]
    ∧ (broadcastTypingStart (clientDispatchHub st cid c now data).1 p).mailbox ch
        = (clientDispatchHub st cid c now data).1.mailbox ch
          ++ [marshal (envelope "typing_start" p)]
    ∧ (broadcastTypingEnd (clientDispatchHub st cid c now data).1 p).mailbox ch
        = (clientDispatchHub st cid c now data).1.mailbox ch
          ++ [marshal (envelope "typing_end" p)] := by
  have hreg : (clientDispatchHub st cid c now data).1.registry = st.registry := rfl
  have hn' : (clientDispatchHub st cid c now data).1.registry.Nodup := by
    rw [hreg]
    exact hn
  have hch' : ch ∈ (clientDispatchHub st cid c now data).1.registry := by
    rw [hreg]
    exact hch
  exact ⟨hreg,
    (broadcastStep_mailbox_room (marshal (envelope "new_message" p)) hn' hch' hroom).1,
    (broadcastStep_mailbox_room (marshal (envelope "chat_created" p)) hn' hch' hroom).1,
    (broadcastStep_mailbox_room (marshal (envelope "message_read" p)) hn' hch' hroom).1,
    (broadcastStep_mailbox_room (marshal (envelope "typing_start" p)) hn' hch' hroom).1,
    (broadcastStep_mailbox_room (marshal (envelope "typing_end" p)) hn' hch' hroom).1⟩

theorem typed_broadcasts_unfiltered_witness :
    (clientDispatchHub hubTwo 0 clientAlice 5 subscribeChatFrame).1.registry = hubTwo.registry
    ∧ (broadcastNewMessage (clientDispatchHub hubTwo 0 clientAlice 5 subscribeChatFrame).1
          (.str "hi")).mailbox 1
        = (clientDispatchHub hubTwo 0 clientAlice 5 subscribeChatFrame).1.mailbox 1
          ++ [marshal (envelope "new_message" (.str "hi"))] := by
  have h := typed_broadcasts_unfiltered hubTwo (.str "hi") 0 clientAlice 5 subscribeChatFrame
    (by decide) 1 (by decide) (by decide)
  exact ⟨h.1, h.2.1⟩

/-- **C5 counterexample**: the claim "the 60-second idle-read deadline is
refreshed on every successfully received inbound frame … so for every
sequence of inbound frames arriving less than 60 seconds apart the
connection is never torn down" is false on the code: two ordinary data
frames at t = 50 and t = 100 (both gaps < 60) with no pong meet the
unrefreshed deadline of 60, and the reader pump is torn down — only the
pong handler calls `SetReadDeadline` again; `ReadMessage` on a data frame
does not. -/
theorem idle_deadline_not_refreshed_by_frames :
    (50 - 0 < pongWait ∧ 100 - 50 < pongWait)
    ∧ readLoopSurvives pongWait [⟨50, .dataFrame⟩, ⟨100, .dataFrame⟩] = false := by
  decide

/-- **C5 (amended)**: the 60-second idle-read deadline is refreshed only on
heartbeat (pong) acknowledgments, not on ordinary received frames — a data
frame arriving in time leaves the deadline unchanged, a pong in time resets
it to 60 seconds after its arrival — and for every sequence of pongs each
arriving within 60 seconds of the previous one the connection is never torn
down for idle timeout. -/
theorem idle_deadline_pong_refresh (d t : Nat) (ts : List Nat) (ht : t ≤ d)
    (hchain : List.Chain (fun x y => y ≤ x + pongWait) 0 ts) :
    readDeadlineStep d ⟨t, .dataFrame⟩ = some d
    ∧ readDeadlineStep d ⟨t, .pong⟩ = some (t + pongWait)
    ∧ readLoopSurvives pongWait (ts.map (fun u => ⟨u, .pong⟩)) = true := by
  refine ⟨?_, ?_, ?_⟩
  · unfold readDeadlineStep
    rw [if_neg (by simp; omega)]
  · unfold readDeadlineStep
    rw [if_neg (by simp; omega)]
  · have h := survivesPongs ts 0 hchain
    simpa using h

theorem idle_deadline_pong_refresh_witness :
    readDeadlineStep 60 ⟨10, .dataFrame⟩ = some 60
    ∧ readDeadlineStep 60 ⟨10, .pong⟩ = some (10 + pongWait)
    ∧ readLoopSurvives pongWait ([30, 80].map (fun u => ⟨u, .pong⟩)) = true :=
  idle_deadline_pong_refresh 60 10 [30, 80] (by omega)
    (List.Chain.cons (by decide) (List.Chain.cons (by decide) List.Chain.nil))

/-- **C6 counterexample**: the claim "the exit of either pump (reader or
writer, whatever the cause) triggers an Unregister request followed by
closing the transport" is false for the writer pump: its deferred teardown
is `ticker.Stop(); c.conn.Close()` and contains no unregister request. -/
theorem write_pump_exit_never_unregisters :
    TeardownAct.unregisterSelf ∉ writePumpExitActions
    ∧ writePumpExitActions = [.stopTicker, .closeTransport] := by
  decide

/-- **C6 (amended)**: only the reader pump's exit triggers an Unregister
request followed by closing the transport; the writer pump's exit stops its
ticker and closes the transport without unregistering (the closed transport
then makes the reader pump exit and unregister). Given that the reader's
unregister request is eventually processed and the connection is never
re-registered, the connection's mailbox is closed exactly once and the
connection ends up absent from the registry — even if further unregister
requests for it arrive. -/
theorem pump_exit_teardown (st : Hub) (cid : Nat) (reqs : List HubReq)
    (hn : st.registry.Nodup) (hmem : cid ∈ st.registry) (hcc : st.closeCount cid = 0)
    (hreg : HubReq.register cid ∉ reqs) (hunreg : HubReq.unregister cid ∈ reqs) :
    readPumpExitActions = [.unregisterSelf, .closeTransport]
    ∧ writePumpExitActions = [.stopTicker, .closeTransport]
    ∧ (hubRun st reqs).closeCount cid = 1
    ∧ cid ∉ (hubRun st reqs).registry := by
  have h := hubRun_close_exactly_once reqs st hn hreg (Or.inl ⟨hcc, hmem⟩) hunreg
  exact ⟨rfl, rfl, h.1, h.2⟩

theorem pump_exit_teardown_witness :
    (hubRun hubOne [HubReq.unregister 0, HubReq.unregister 0]).closeCount 0 = 1
    ∧ 0 ∉ (hubRun hubOne [HubReq.unregister 0, HubReq.unregister 0]).registry := by
  have h := pump_exit_teardown hubOne 0 [HubReq.unregister 0, HubReq.unregister 0]
    (by decide) (by decide) rfl (by decide) (by decide)
  exact ⟨h.2.2.1, h.2.2.2⟩

theorem notObjPayload_noBroadcast (c : ClientCtx) (now : Int) (data : JValue)
    (hno : ∀ r, data.lookup "payload" ≠ some (.obj r)) :
    handleTypingStart c now data = ⟨[], []⟩
    ∧ handleTypingEnd c now data = ⟨[], []⟩
    ∧ handleMessageRead c now data = ⟨[], []⟩ := by
  unfold handleTypingStart handleTypingEnd handleMessageRead
  cases hd : data.lookup "payload" with
  | none => exact ⟨rfl, rfl, rfl⟩
  | some v =>
      cases v with
      | obj r => exact absurd hd (hno r)
      | null => exact ⟨rfl, rfl, rfl⟩
      | bool b => exact ⟨rfl, rfl, rfl⟩
      | num n => exact ⟨rfl, rfl, rfl⟩
      | str s => exact ⟨rfl, rfl, rfl⟩
      | arr a => exact ⟨rfl, rfl, rfl⟩

/-- **C10**: for inbound `typing_start`, `typing_end` and `message_read`
frames whose `payload` is a structured object, the rebroadcast envelope's
`userId` is the connection's handshake-bound identity and its `timestamp`
is server-assigned; the envelope depends only on the client-supplied
`chatId` (and `messageIds` for `message_read`) — any `userId` or
`timestamp` the client put in the payload is ignored. If the `payload` is
not a structured object, nothing is broadcast at all. -/
theorem rebroadcast_server_identity (c : ClientCtx) (now : Int) (data : JValue)
    (p q : List (String × JValue)) :
    (data.lookup "payload" = some (.obj p) →
        handleTypingStart c now data = ⟨[], [marshal (typingStartEnvelope c now p)]⟩
        ∧ handleTypingEnd c now data = ⟨[], [marshal (typingEndEnvelope c now p)]⟩
        ∧ handleMessageRead c now data = ⟨[], [marshal (messageReadEnvelope c now p)]⟩)
    ∧ payloadField (typingStartEnvelope c now p) "userId" = some (.str c.userID)
    ∧ payloadField (typingStartEnvelope c now p) "timestamp" = some (.num now)
    ∧ payloadField (typingEndEnvelope c now p) "userId" = some (.str c.userID)
    ∧ payloadField (typingEndEnvelope c now p) "timestamp" = some (.num now)
    ∧ payloadField (messageReadEnvelope c now p) "userId" = some (.str c.userID)
    ∧ payloadField (messageReadEnvelope c now p) "timestamp" = some (.num now)
    ∧ (List.lookup "chatId" p = List.lookup "chatId" q →
        typingStartEnvelope c now p = typingStartEnvelope c now q
        ∧ typingEndEnvelope c now p = typingEndEnvelope c now q)
    ∧ (List.lookup "chatId" p = List.lookup "chatId" q →
        List.lookup "messageIds" p = List.lookup "messageIds" q →
        messageReadEnvelope c now p = messageReadEnvelope c now q)
    ∧ ((∀ r, data.lookup "payload" ≠ some (.obj r)) →
        handleTypingStart c now data = ⟨[], []⟩
        ∧ handleTypingEnd c now data = ⟨[], []⟩
        ∧ handleMessageRead c now data = ⟨[], []⟩) := by
  refine ⟨?_, rfl, rfl, rfl, rfl, rfl, rfl, ?_, ?_, notObjPayload_noBroadcast c now data⟩
  · intro hp
    refine ⟨?_, ?_, ?_⟩
    · unfold handleTypingStart
      rw [hp]
    · unfold handleTypingEnd
      rw [hp]
    · unfold handleMessageRead
      rw [hp]
  · intro hchat
    constructor
    · unfold typingStartEnvelope
      rw [hchat]
    · unfold typingEndEnvelope
      rw [hchat]
  · intro hchat hmsg
    unfold messageReadEnvelope
    rw [hchat, hmsg]

theorem rebroadcast_server_identity_witness :
    (handleTypingStart clientAlice 99 spoofedTypingFrame
        = ⟨[], [marshal (typingStartEnvelope clientAlice 99
            [("chatId", .str "chat1"), ("userId", .str "mallory"), ("timestamp", .num 123)])]⟩)
    ∧ payloadField (typingStartEnvelope clientAlice 99
          [("chatId", .str "chat1"), ("userId", .str "mallory"), ("timestamp", .num 123)])
        "userId" = some (.str "alice")
    ∧ payloadField (typingStartEnvelope clientAlice 99
          [("chatId", .str "chat1"), ("userId", .str "mallory"), ("timestamp", .num 123)])
        "timestamp" = some (.num 99)
    ∧ typingStartEnvelope clientAlice 99
          [("chatId", .str "chat1"), ("userId", .str "mallory"), ("timestamp", .num 123)]
        = typingStartEnvelope clientAlice 99 [("chatId", .str "chat1")] := by
  have h := rebroadcast_server_identity clientAlice 99 spoofedTypingFrame
    [("chatId", .str "chat1"), ("userId", .str "mallory"), ("timestamp", .num 123)]
    [("chatId", .str "chat1")]
  exact ⟨(h.1 rfl).1, h.2.1, h.2.2.1, (h.2.2.2.2.2.2.2.1 rfl).1⟩

end Coded
